import Mathlib

/-
Verification of the kafka_candle_ingestion ingestion engine against its
specification.  The Python source is shallowly embedded: each class becomes a
structure, each method a pure function threading the state explicitly, and
wall-clock instants become exact rationals (one `now` per call).  External
effects (the sink write succeeding or raising, the datetime library parsing a
timestamp) are parameters of the corresponding functions.
-/

namespace KafkaCandleIngestion

/-! ## Circuit breaker — src/src/core/circuit_breaker.py -/

/-- `CircuitBreakerState` from src/src/models/data_models.py (CLOSED, OPEN,
HALF_OPEN).  `OPEN` is rendered `opened` because `open` is a Lean keyword. -/
inductive CircuitBreakerState where
  | closed
  | halfOpen
  | opened
deriving DecidableEq, Repr

/-- `CircuitBreakerConfig` from src/src/config/config_models.py (the
`half_open_timeout` field is never read by the breaker and is omitted). -/
structure CircuitBreakerConfig where
  failure_threshold : Nat
  reset_timeout : ℚ
deriving DecidableEq, Repr

/-- Mutable state of `DatabaseCircuitBreaker` (`__init__`). -/
structure Breaker where
  state : CircuitBreakerState
  failures : Nat
  last_failure_time : ℚ
  last_success_time : ℚ
deriving DecidableEq, Repr

/-- `DatabaseCircuitBreaker.__init__`: CLOSED, zero failures,
`last_failure_time = 0`, `last_success_time = time.time()` (the construction
instant `t0`). -/
def initBreaker (t0 : ℚ) : Breaker :=
  { state := .closed, failures := 0, last_failure_time := 0, last_success_time := t0 }

/-- `DatabaseCircuitBreaker._should_attempt_reset`. -/
def should_attempt_reset (cfg : CircuitBreakerConfig) (b : Breaker) (now : ℚ) : Bool :=
  cfg.reset_timeout ≤ now - b.last_failure_time

/-- `DatabaseCircuitBreaker._handle_success`. -/
def handle_success (b : Breaker) (now : ℚ) : Breaker :=
  let b1 := if b.state = .halfOpen then { b with state := .closed } else b
  { b1 with failures := 0, last_success_time := now }

/-- `DatabaseCircuitBreaker._handle_failure`: increment `failures`, stamp
`last_failure_time`, and trip to OPEN when the threshold is reached and the
state is not already OPEN. -/
def handle_failure (cfg : CircuitBreakerConfig) (b : Breaker) (now : ℚ) : Breaker :=
  let b1 := { b with failures := b.failures + 1, last_failure_time := now }
  if cfg.failure_threshold ≤ b1.failures ∧ b1.state ≠ .opened then
    { b1 with state := .opened }
  else b1

/-- Outcome of the gating prologue of `execute` (lines 91–107): either the
call proceeds (with the breaker possibly moved to HALF_OPEN) or
`CircuitBreakerError` is raised carrying the remaining wait. -/
inductive GateResult where
  | proceed (b : Breaker)
  | rejected (wait_remaining : ℚ)
deriving DecidableEq, Repr

/-- The gating prologue of `DatabaseCircuitBreaker.execute`. -/
def gate (cfg : CircuitBreakerConfig) (b : Breaker) (now : ℚ) : GateResult :=
  if b.state = .opened then
    if should_attempt_reset cfg b now then .proceed { b with state := .halfOpen }
    else .rejected (cfg.reset_timeout - (now - b.last_failure_time))
  else .proceed b

/-- What a caller of `execute` observes: the operation's value (always `None`
here, tagged `ok`), or a raised `CircuitBreakerError` — either the fail-fast
one (`circuitOpenError`) or the wrapper around an operation failure
(`circuitFailureError`). -/
inductive ExecOutcome where
  | ok
  | circuitOpenError (wait_remaining : ℚ)
  | circuitFailureError
deriving DecidableEq, Repr

/-- Result of one `execute` call: the breaker afterwards, the outcome, and
whether the wrapped operation was invoked. -/
structure ExecResult where
  breaker : Breaker
  outcome : ExecOutcome
  op_invoked : Bool
deriving DecidableEq, Repr

/-- `DatabaseCircuitBreaker.execute`.  The wrapped operation is abstracted by
the single bit `op_fails` (whether `await operation(...)` raises). -/
def execute (cfg : CircuitBreakerConfig) (b : Breaker) (now : ℚ) (op_fails : Bool) : ExecResult :=
  match gate cfg b now with
  | .rejected w => { breaker := b, outcome := .circuitOpenError w, op_invoked := false }
  | .proceed b1 =>
    if op_fails then
      { breaker := handle_failure cfg b1 now, outcome := .circuitFailureError, op_invoked := true }
    else
      { breaker := handle_success b1 now, outcome := .ok, op_invoked := true }

/-- A sequence of `execute` calls, each given by its instant and whether the
wrapped operation would fail. -/
def runBreaker (cfg : CircuitBreakerConfig) (b : Breaker) (evs : List (ℚ × Bool)) : Breaker :=
  evs.foldl (fun acc e => (execute cfg acc e.1 e.2).breaker) b

theorem runBreaker_nil (cfg : CircuitBreakerConfig) (b : Breaker) :
    runBreaker cfg b [] = b := rfl

theorem runBreaker_cons (cfg : CircuitBreakerConfig) (b : Breaker) (e : ℚ × Bool)
    (evs : List (ℚ × Bool)) :
    runBreaker cfg b (e :: evs) = runBreaker cfg (execute cfg b e.1 e.2).breaker evs := rfl

theorem runBreaker_cons_mk (cfg : CircuitBreakerConfig) (b : Breaker) (t : ℚ) (f : Bool)
    (evs : List (ℚ × Bool)) :
    runBreaker cfg b ((t, f) :: evs) = runBreaker cfg (execute cfg b t f).breaker evs := rfl

/-- Claim C4: while the breaker is OPEN, a call at `now` with
`now − last_failure_time < reset_timeout` fails fast with a `CircuitOpen`
error carrying `wait_remaining = reset_timeout − (now − last_failure_time)`
and does not invoke the operation; a call with
`now − last_failure_time ≥ reset_timeout` instead moves the breaker to
HALF_OPEN and invokes the operation (whose success or failure is then handled
from the HALF_OPEN state). -/
theorem c4_open_fail_fast_and_reset (cfg : CircuitBreakerConfig) (b : Breaker)
    (now : ℚ) (op_fails : Bool) (hopen : b.state = .opened) :
    (now - b.last_failure_time < cfg.reset_timeout →
      execute cfg b now op_fails =
        { breaker := b,
          outcome := .circuitOpenError (cfg.reset_timeout - (now - b.last_failure_time)),
          op_invoked := false }) ∧
    (cfg.reset_timeout ≤ now - b.last_failure_time →
      (execute cfg b now op_fails).op_invoked = true ∧
      execute cfg b now op_fails =
        (if op_fails then
          { breaker := handle_failure cfg { b with state := .halfOpen } now,
            outcome := .circuitFailureError, op_invoked := true }
        else
          { breaker := handle_success { b with state := .halfOpen } now,
            outcome := .ok, op_invoked := true })) := by
  constructor
  · intro hlt
    simp [execute, gate, hopen, should_attempt_reset, not_le.mpr hlt]
  · intro hge
    cases op_fails <;>
      simp [execute, gate, hopen, should_attempt_reset, hge]

/-- Witness for C4 at a concrete input: breaker OPEN since `t = 100` with
`reset_timeout = 60`; a call at `now = 110` fails fast with wait 50 and a
call at `now = 170` proceeds from HALF_OPEN. -/
theorem c4_open_fail_fast_and_reset_witness :
    execute ⟨5, 60⟩ ⟨.opened, 5, 100, 0⟩ 110 true =
      { breaker := ⟨.opened, 5, 100, 0⟩,
        outcome := .circuitOpenError 50, op_invoked := false } ∧
    (execute ⟨5, 60⟩ ⟨.opened, 5, 100, 0⟩ 170 false).op_invoked = true := by
  constructor
  · have h := (c4_open_fail_fast_and_reset ⟨5, 60⟩ ⟨.opened, 5, 100, 0⟩ 110 true rfl).1
      (by norm_num)
    norm_num at h
    exact h
  · exact ((c4_open_fail_fast_and_reset ⟨5, 60⟩ ⟨.opened, 5, 100, 0⟩ 170 false rfl).2
      (by norm_num)).1

/-- Helper for C3: from a CLOSED breaker strictly below the threshold, a run
of consecutive failing calls accumulates one failure per call, stays CLOSED
strictly below the threshold, and trips to OPEN exactly when the threshold is
reached. -/
theorem consecutive_failures_from_closed (cfg : CircuitBreakerConfig) :
    ∀ (ts : List ℚ) (b : Breaker), b.state = .closed →
      b.failures < cfg.failure_threshold →
      b.failures + ts.length ≤ cfg.failure_threshold →
      (runBreaker cfg b (ts.map (fun t => (t, true)))).failures = b.failures + ts.length ∧
      (runBreaker cfg b (ts.map (fun t => (t, true)))).state =
        (if b.failures + ts.length < cfg.failure_threshold then CircuitBreakerState.closed
         else .opened) := by
  intro ts
  induction ts with
  | nil =>
    intro b hb hflt _
    simp [runBreaker, hb, hflt]
  | cons t rest ih =>
    intro b hb hflt hle
    rw [List.length_cons] at hle ⊢
    rw [List.map_cons, runBreaker_cons]
    by_cases htrip : cfg.failure_threshold ≤ b.failures + 1
    · have hthr : b.failures + 1 = cfg.failure_threshold := by omega
      have hrest : rest = [] := by
        have hlen : rest.length = 0 := by omega
        exact List.length_eq_zero.mp hlen
      subst hrest
      have hexec : (execute cfg b t true).breaker =
          { b with state := .opened, failures := b.failures + 1, last_failure_time := t } := by
        simp [execute, gate, hb, handle_failure, htrip]
      rw [hexec]
      simp only [List.map_nil, runBreaker_nil, List.length_nil]
      constructor
      · trivial
      · rw [if_neg (by omega)]
    · have hexec : (execute cfg b t true).breaker =
          { b with failures := b.failures + 1, last_failure_time := t } := by
        simp [execute, gate, hb, handle_failure, htrip]
      rw [hexec]
      have h := ih { b with failures := b.failures + 1, last_failure_time := t }
        (by simpa using hb) (by simpa using Nat.lt_of_not_le htrip)
        (by simp only []; omega)
      refine ⟨?_, ?_⟩
      · rw [h.1]; simp only []; omega
      · rw [h.2]
        by_cases hcase : b.failures + (rest.length + 1) < cfg.failure_threshold
        · rw [if_pos (by simp only []; omega), if_pos hcase]
        · rw [if_neg (by simp only []; omega), if_neg hcase]

/-- Claim C3 as stated is false on the code: with `failure_threshold = 2` and
`reset_timeout = 10`, the trace fail(t=1), fail(t=2), fail(t=20), fail(t=40)
— the last two being failed HALF_OPEN probes — leaves `failures = 4`, which
exceeds `failure_threshold + 1 = 3`, and the breaker sits in OPEN with that
value between transitions. -/
theorem c3_failures_bound_counterexample :
    (runBreaker ⟨2, 10⟩ (initBreaker 0)
        [(1, true), (2, true), (20, true), (40, true)]).failures = 4 ∧
    ¬ ((runBreaker ⟨2, 10⟩ (initBreaker 0)
        [(1, true), (2, true), (20, true), (40, true)]).failures ≤ 2 + 1) := by
  have e1 : (execute ⟨2, 10⟩ (initBreaker 0) 1 true).breaker = ⟨.closed, 1, 1, 0⟩ := by
    simp [execute, gate, handle_failure, initBreaker]
  have e2 : (execute ⟨2, 10⟩ (⟨.closed, 1, 1, 0⟩ : Breaker) 2 true).breaker =
      ⟨.opened, 2, 2, 0⟩ := by
    simp [execute, gate, handle_failure]
  have hres3 : should_attempt_reset ⟨2, 10⟩ ⟨.opened, 2, 2, 0⟩ 20 = true := by
    simp only [should_attempt_reset, decide_eq_true_eq]
    norm_num
  have e3 : (execute ⟨2, 10⟩ (⟨.opened, 2, 2, 0⟩ : Breaker) 20 true).breaker =
      ⟨.opened, 3, 20, 0⟩ := by
    simp [execute, gate, hres3, handle_failure]
  have hres4 : should_attempt_reset ⟨2, 10⟩ ⟨.opened, 3, 20, 0⟩ 40 = true := by
    simp only [should_attempt_reset, decide_eq_true_eq]
    norm_num
  have e4 : (execute ⟨2, 10⟩ (⟨.opened, 3, 20, 0⟩ : Breaker) 40 true).breaker =
      ⟨.opened, 4, 40, 0⟩ := by
    simp [execute, gate, hres4, handle_failure]
  have hrun : runBreaker ⟨2, 10⟩ (initBreaker 0)
      [(1, true), (2, true), (20, true), (40, true)] = ⟨.opened, 4, 40, 0⟩ := by
    rw [runBreaker_cons_mk, e1, runBreaker_cons_mk, e2, runBreaker_cons_mk, e3,
      runBreaker_cons_mk, e4, runBreaker_nil]
  rw [hrun]
  norm_num

/-- Claim C3 (amended): starting from CLOSED, the breaker transitions to OPEN
exactly when the `failure_threshold`-th consecutive failure occurs (not
before, not after), and every successful operation resets `failures` to 0;
however `failures` is not bounded by `failure_threshold + 1` — each failed
HALF_OPEN probe increments it further (see the counterexample). -/
theorem c3_trip_exactly_at_threshold_and_reset (cfg : CircuitBreakerConfig) (t0 : ℚ)
    (hthr : 1 ≤ cfg.failure_threshold) :
    (∀ ts : List ℚ, ts.length ≤ cfg.failure_threshold →
      (runBreaker cfg (initBreaker t0) (ts.map (fun t => (t, true)))).failures = ts.length ∧
      (runBreaker cfg (initBreaker t0) (ts.map (fun t => (t, true)))).state =
        (if ts.length < cfg.failure_threshold then .closed else .opened)) ∧
    (∀ (b : Breaker) (now : ℚ), (execute cfg b now false).outcome = .ok →
      (execute cfg b now false).breaker.failures = 0) := by
  constructor
  · intro ts hlen
    have h := consecutive_failures_from_closed cfg ts (initBreaker t0) rfl
      (by simpa [initBreaker] using hthr) (by simpa [initBreaker] using hlen)
    simpa [initBreaker] using h
  · intro b now hok
    rcases hg : gate cfg b now with b1 | w
    · simp [execute, hg, handle_success]
    · simp [execute, hg] at hok

/-- Witness for C3 (amended): `failure_threshold = 2`; two consecutive
failures from a fresh breaker leave `failures = 2` and the state OPEN. -/
theorem c3_trip_exactly_at_threshold_and_reset_witness :
    (runBreaker ⟨2, 10⟩ (initBreaker 0) ([1, 2].map (fun t => (t, true)))).failures = 2 ∧
    (runBreaker ⟨2, 10⟩ (initBreaker 0) ([1, 2].map (fun t => (t, true)))).state = .opened := by
  have h := (c3_trip_exactly_at_threshold_and_reset ⟨2, 10⟩ 0 (by norm_num)).1 [1, 2]
    (by norm_num)
  simpa using h

/-! ### Reachability invariant for the breaker (C10) -/

/-- Invariant maintained by every `execute` call: an OPEN breaker has at
least `failure_threshold` recorded failures, and a post-call breaker is never
HALF_OPEN (HALF_OPEN exists only inside `execute`, between the gate and the
success/failure handlers). -/
def BreakerInv (cfg : CircuitBreakerConfig) (b : Breaker) : Prop :=
  (b.state = .opened → cfg.failure_threshold ≤ b.failures) ∧ b.state ≠ .halfOpen

theorem breakerInv_init (cfg : CircuitBreakerConfig) (t0 : ℚ) :
    BreakerInv cfg (initBreaker t0) :=
  ⟨by simp [initBreaker], by simp [initBreaker]⟩

theorem breakerInv_step (cfg : CircuitBreakerConfig) (b : Breaker) (now : ℚ) (f : Bool)
    (h : BreakerInv cfg b) : BreakerInv cfg (execute cfg b now f).breaker := by
  obtain ⟨hopen, hho⟩ := h
  cases hs : b.state with
  | halfOpen => exact absurd hs hho
  | closed =>
    cases f with
    | false => exact ⟨by simp [execute, gate, hs, handle_success], by simp [execute, gate, hs, handle_success]⟩
    | true =>
      by_cases htrip : cfg.failure_threshold ≤ b.failures + 1
      · exact ⟨by simp [execute, gate, hs, handle_failure, htrip],
          by simp [execute, gate, hs, handle_failure, htrip]⟩
      · exact ⟨by simp [execute, gate, hs, handle_failure, htrip],
          by simp [execute, gate, hs, handle_failure, htrip]⟩
  | opened =>
    by_cases hres : should_attempt_reset cfg b now
    · cases f with
      | false =>
        exact ⟨by simp [execute, gate, hs, hres, handle_success],
          by simp [execute, gate, hs, hres, handle_success]⟩
      | true =>
        have hle : cfg.failure_threshold ≤ b.failures + 1 :=
          le_trans (hopen hs) (Nat.le_succ _)
        exact ⟨by simp [execute, gate, hs, hres, handle_failure, hle],
          by simp [execute, gate, hs, hres, handle_failure, hle]⟩
    · have hb : (execute cfg b now f).breaker = b := by
        simp [execute, gate, hs, hres]
      rw [hb]
      exact ⟨hopen, hho⟩

theorem breakerInv_run (cfg : CircuitBreakerConfig) (evs : List (ℚ × Bool)) :
    ∀ b : Breaker, BreakerInv cfg b → BreakerInv cfg (runBreaker cfg b evs) := by
  induction evs with
  | nil => intro b h; simpa [runBreaker] using h
  | cons e rest ih =>
    intro b h
    rw [runBreaker_cons]
    exact ih _ (breakerInv_step cfg b e.1 e.2 h)

/-- Claim C10: in every reachable breaker state, entering HALF_OPEN (which
happens only inside `execute`, via the gate) implies
`failures ≥ failure_threshold`; consequently the first failed operation
executed while HALF_OPEN trips the breaker back to OPEN even though
`_handle_failure` has no explicit HALF_OPEN branch. -/
theorem c10_half_open_failures_at_threshold (cfg : CircuitBreakerConfig) (t0 : ℚ)
    (evs : List (ℚ × Bool)) (now now2 : ℚ) (b1 : Breaker)
    (hgate : gate cfg (runBreaker cfg (initBreaker t0) evs) now = .proceed b1)
    (hho : b1.state = .halfOpen) :
    cfg.failure_threshold ≤ b1.failures ∧
      (handle_failure cfg b1 now2).state = .opened := by
  have hinv : BreakerInv cfg (runBreaker cfg (initBreaker t0) evs) :=
    breakerInv_run cfg evs (initBreaker t0) (breakerInv_init cfg t0)
  obtain ⟨hopen, hnho⟩ := hinv
  have hfail : cfg.failure_threshold ≤ b1.failures := by
    cases hs : (runBreaker cfg (initBreaker t0) evs).state with
    | closed =>
      rw [show gate cfg (runBreaker cfg (initBreaker t0) evs) now =
          .proceed (runBreaker cfg (initBreaker t0) evs) by simp [gate, hs]] at hgate
      have heq := GateResult.proceed.inj hgate
      rw [← heq] at hho
      exact absurd hho (by simp [hs])
    | halfOpen => exact absurd hs hnho
    | opened =>
      by_cases hres : should_attempt_reset cfg (runBreaker cfg (initBreaker t0) evs) now
      · rw [show gate cfg (runBreaker cfg (initBreaker t0) evs) now =
            .proceed { runBreaker cfg (initBreaker t0) evs with state := .halfOpen } by
          simp [gate, hs, hres]] at hgate
        have heq := GateResult.proceed.inj hgate
        rw [← heq]
        simpa using hopen hs
      · rw [show gate cfg (runBreaker cfg (initBreaker t0) evs) now =
            .rejected (cfg.reset_timeout -
              (now - (runBreaker cfg (initBreaker t0) evs).last_failure_time)) by
          simp [gate, hs, hres]] at hgate
        exact absurd hgate (by simp)
  refine ⟨hfail, ?_⟩
  have htrip : cfg.failure_threshold ≤ b1.failures + 1 ∧
      ¬ b1.state = CircuitBreakerState.opened := by
    exact ⟨le_trans hfail (Nat.le_succ _), by simp [hho]⟩
  simp [handle_failure, htrip.1, hho]

/-- Witness for C10: `failure_threshold = 1`; one failure at `t = 1` opens
the breaker; the gate at `t = 20` yields HALF_OPEN with `failures = 1 ≥ 1`,
and a failed probe reopens it. -/
theorem c10_half_open_failures_at_threshold_witness :
    (1 : Nat) ≤ (⟨.halfOpen, 1, 1, 0⟩ : Breaker).failures ∧
    (handle_failure ⟨1, 10⟩ ⟨.halfOpen, 1, 1, 0⟩ 21).state = .opened := by
  refine c10_half_open_failures_at_threshold ⟨1, 10⟩ 0 [(1, true)] 20 21
    ⟨.halfOpen, 1, 1, 0⟩ ?_ rfl
  have e1 : (execute ⟨1, 10⟩ (initBreaker 0) 1 true).breaker = ⟨.opened, 1, 1, 0⟩ := by
    simp [execute, gate, handle_failure, initBreaker]
  have hrun : runBreaker ⟨1, 10⟩ (initBreaker 0) [(1, true)] = ⟨.opened, 1, 1, 0⟩ := by
    rw [runBreaker_cons_mk, e1, runBreaker_nil]
  rw [hrun]
  have hres : should_attempt_reset ⟨1, 10⟩ ⟨.opened, 1, 1, 0⟩ 20 = true := by
    simp only [should_attempt_reset, decide_eq_true_eq]
    norm_num
  simp [gate, hres]

/-! ## Adaptive polling controller — src/src/core/processor.py -/

/-- `DynamicPollingConfig` from src/src/config/config_models.py. -/
structure DynamicPollingConfig where
  latency_threshold_high : ℚ
  latency_threshold_low : ℚ
  poll_timeout_min : ℚ
  poll_timeout_max : ℚ
  batch_size_min : ℤ
  batch_size_max : ℤ
deriving DecidableEq, Repr

/-- The adaptive state held by `MessageProcessor`. -/
structure AdaptState where
  current_poll_timeout : ℚ
  current_max_batch_size : ℤ
deriving DecidableEq, Repr

/-- `MessageProcessor.__init__` copies `config.kafka.initial_poll_timeout`
and `config.kafka.initial_max_batch_size` into the current values with no
clamping against the `dynamic_polling` bounds. -/
def initAdaptState (initial_poll_timeout : ℚ) (initial_max_batch_size : ℤ) : AdaptState :=
  { current_poll_timeout := initial_poll_timeout,
    current_max_batch_size := initial_max_batch_size }

/-- Python `int(...)` applied to a real value: truncation toward zero. -/
def pyInt (q : ℚ) : ℤ := if 0 ≤ q then ⌊q⌋ else ⌈q⌉

/-- `MessageProcessor._adapt_polling_parameters`.  The float factors 1.5, 0.8
and 1.2 are modelled by the exact rationals 3/2, 4/5 and 6/5. -/
def adapt_polling_parameters (cfg : DynamicPollingConfig) (s : AdaptState)
    (insert_latency : ℚ) : AdaptState :=
  if cfg.latency_threshold_high < insert_latency then
    { current_poll_timeout := min (s.current_poll_timeout * (3 / 2)) cfg.poll_timeout_max,
      current_max_batch_size :=
        max (pyInt ((s.current_max_batch_size : ℚ) * (4 / 5))) cfg.batch_size_min }
  else if insert_latency < cfg.latency_threshold_low then
    { current_poll_timeout := max (s.current_poll_timeout * (4 / 5)) cfg.poll_timeout_min,
      current_max_batch_size :=
        min (pyInt ((s.current_max_batch_size : ℚ) * (6 / 5))) cfg.batch_size_max }
  else s

/-- A sequence of flushes with the given observed insert latencies. -/
def runAdapt (cfg : DynamicPollingConfig) (s : AdaptState) (ls : List ℚ) : AdaptState :=
  ls.foldl (fun acc l => adapt_polling_parameters cfg acc l) s

theorem runAdapt_nil (cfg : DynamicPollingConfig) (s : AdaptState) :
    runAdapt cfg s [] = s := rfl

theorem runAdapt_cons (cfg : DynamicPollingConfig) (s : AdaptState) (l : ℚ) (ls : List ℚ) :
    runAdapt cfg s (l :: ls) = runAdapt cfg (adapt_polling_parameters cfg s l) ls := rfl

/-- The numeric checks of `validate_config` in src/src/config/loader.py: the
initial poll timeout must be positive, the pool size in (0, 100], the insert
batch size positive.  No check relates the initial controller values to the
`dynamic_polling` bounds. -/
def validate_config_ok (initial_poll_timeout : ℚ) (pool_size : ℤ) (batch_size : ℤ) : Bool :=
  decide (0 < initial_poll_timeout) &&
    (decide (0 < pool_size) && decide (pool_size ≤ 100)) &&
    decide (0 < batch_size)

/-- The `dynamic_polling` defaults of src/src/config/loader.py:
`latency_threshold_high = 1.0`, `latency_threshold_low = 0.2`,
`poll_timeout_min = 0.5`, `poll_timeout_max = 5.0`, `batch_size_min = 100`,
`batch_size_max = 2000`. -/
def defaultDynamicPolling : DynamicPollingConfig :=
  { latency_threshold_high := 1, latency_threshold_low := 1 / 5,
    poll_timeout_min := 1 / 2, poll_timeout_max := 5,
    batch_size_min := 100, batch_size_max := 2000 }

/-- One adaptation step preserves the configured bounds, provided the
configured minimums are nonnegative. -/
theorem adapt_preserves_bounds (cfg : DynamicPollingConfig) (s : AdaptState) (l : ℚ)
    (hpm : 0 ≤ cfg.poll_timeout_min) (hbm : 0 ≤ cfg.batch_size_min)
    (h1 : cfg.poll_timeout_min ≤ s.current_poll_timeout)
    (h2 : s.current_poll_timeout ≤ cfg.poll_timeout_max)
    (h3 : cfg.batch_size_min ≤ s.current_max_batch_size)
    (h4 : s.current_max_batch_size ≤ cfg.batch_size_max) :
    cfg.poll_timeout_min ≤ (adapt_polling_parameters cfg s l).current_poll_timeout ∧
    (adapt_polling_parameters cfg s l).current_poll_timeout ≤ cfg.poll_timeout_max ∧
    cfg.batch_size_min ≤ (adapt_polling_parameters cfg s l).current_max_batch_size ∧
    (adapt_polling_parameters cfg s l).current_max_batch_size ≤ cfg.batch_size_max := by
  have hp0 : (0 : ℚ) ≤ s.current_poll_timeout := le_trans hpm h1
  have hb0 : (0 : ℚ) ≤ (s.current_max_batch_size : ℚ) := by
    exact_mod_cast le_trans hbm h3
  unfold adapt_polling_parameters
  split_ifs with hhigh hlow
  · refine ⟨?_, ?_, ?_, ?_⟩
    · apply le_min
      · nlinarith
      · exact le_trans h1 h2
    · exact min_le_right _ _
    · exact le_max_right _ _
    · apply max_le
      · have hnn : (0 : ℚ) ≤ (s.current_max_batch_size : ℚ) * (4 / 5) := by nlinarith
        rw [pyInt, if_pos hnn]
        have hle : (s.current_max_batch_size : ℚ) * (4 / 5) ≤
            (s.current_max_batch_size : ℚ) := by nlinarith
        calc ⌊(s.current_max_batch_size : ℚ) * (4 / 5)⌋
            ≤ ⌊(s.current_max_batch_size : ℚ)⌋ := Int.floor_mono hle
          _ = s.current_max_batch_size := Int.floor_intCast _
          _ ≤ cfg.batch_size_max := h4
      · exact le_trans h3 h4
  · refine ⟨?_, ?_, ?_, ?_⟩
    · exact le_max_right _ _
    · apply max_le
      · nlinarith
      · exact le_trans h1 h2
    · apply le_min
      · have hnn : (0 : ℚ) ≤ (s.current_max_batch_size : ℚ) * (6 / 5) := by nlinarith
        rw [pyInt, if_pos hnn]
        refine le_trans h3 (Int.le_floor.mpr ?_)
        nlinarith
      · exact le_trans h3 h4
    · exact min_le_right _ _
  · exact ⟨h1, h2, h3, h4⟩

/-- Claim C6 as stated is false on the code: `validate_config` accepts a
configuration with `initial_poll_timeout = 10` while `poll_timeout_max = 5`
(it only checks positivity), and immediately after construction
`current_poll_timeout = 10 > poll_timeout_max`. -/
theorem c6_initial_out_of_range_counterexample :
    validate_config_ok 10 10 500 = true ∧
    (initAdaptState 10 500).current_poll_timeout = 10 ∧
    ¬ ((initAdaptState 10 500).current_poll_timeout ≤
        defaultDynamicPolling.poll_timeout_max) := by
  refine ⟨?_, rfl, ?_⟩
  · simp only [validate_config_ok, Bool.and_eq_true, decide_eq_true_eq]
    norm_num
  · show ¬ ((10 : ℚ) ≤ 5)
    norm_num

/-- Claim C6 (amended): provided the configured minimums are nonnegative and
the configured initial values lie within the configured bounds — which the
loader does not enforce — then after construction and after every sequence of
adaptations, `poll_timeout_min ≤ current_poll_timeout ≤ poll_timeout_max` and
`batch_size_min ≤ current_max_batch_size ≤ batch_size_max`. -/
theorem c6_adaptive_bounds_invariant (cfg : DynamicPollingConfig) (p0 : ℚ) (b0 : ℤ)
    (ls : List ℚ)
    (hpm : 0 ≤ cfg.poll_timeout_min) (hbm : 0 ≤ cfg.batch_size_min)
    (hp1 : cfg.poll_timeout_min ≤ p0) (hp2 : p0 ≤ cfg.poll_timeout_max)
    (hb1 : cfg.batch_size_min ≤ b0) (hb2 : b0 ≤ cfg.batch_size_max) :
    cfg.poll_timeout_min ≤ (runAdapt cfg (initAdaptState p0 b0) ls).current_poll_timeout ∧
    (runAdapt cfg (initAdaptState p0 b0) ls).current_poll_timeout ≤ cfg.poll_timeout_max ∧
    cfg.batch_size_min ≤ (runAdapt cfg (initAdaptState p0 b0) ls).current_max_batch_size ∧
    (runAdapt cfg (initAdaptState p0 b0) ls).current_max_batch_size ≤ cfg.batch_size_max := by
  have main : ∀ (ls : List ℚ) (s : AdaptState),
      cfg.poll_timeout_min ≤ s.current_poll_timeout →
      s.current_poll_timeout ≤ cfg.poll_timeout_max →
      cfg.batch_size_min ≤ s.current_max_batch_size →
      s.current_max_batch_size ≤ cfg.batch_size_max →
      cfg.poll_timeout_min ≤ (runAdapt cfg s ls).current_poll_timeout ∧
      (runAdapt cfg s ls).current_poll_timeout ≤ cfg.poll_timeout_max ∧
      cfg.batch_size_min ≤ (runAdapt cfg s ls).current_max_batch_size ∧
      (runAdapt cfg s ls).current_max_batch_size ≤ cfg.batch_size_max := by
    intro ls
    induction ls with
    | nil => intro s u1 u2 u3 u4; exact ⟨u1, u2, u3, u4⟩
    | cons l rest ih =>
      intro s u1 u2 u3 u4
      rw [runAdapt_cons]
      obtain ⟨v1, v2, v3, v4⟩ := adapt_preserves_bounds cfg s l hpm hbm u1 u2 u3 u4
      exact ih _ v1 v2 v3 v4
  exact main ls (initAdaptState p0 b0) hp1 hp2 hb1 hb2

/-- Witness for C6 (amended) at the loader defaults: initial poll timeout 1,
initial batch size 500, one low-latency flush. -/
theorem c6_adaptive_bounds_invariant_witness :
    defaultDynamicPolling.poll_timeout_min ≤
      (runAdapt defaultDynamicPolling (initAdaptState 1 500)
        [1 / 10]).current_poll_timeout ∧
    (runAdapt defaultDynamicPolling (initAdaptState 1 500)
        [1 / 10]).current_poll_timeout ≤ defaultDynamicPolling.poll_timeout_max ∧
    defaultDynamicPolling.batch_size_min ≤
      (runAdapt defaultDynamicPolling (initAdaptState 1 500)
        [1 / 10]).current_max_batch_size ∧
    (runAdapt defaultDynamicPolling (initAdaptState 1 500)
        [1 / 10]).current_max_batch_size ≤ defaultDynamicPolling.batch_size_max := by
  refine c6_adaptive_bounds_invariant defaultDynamicPolling 1 500 [1 / 10] ?_ ?_ ?_ ?_ ?_ ?_ <;>
    norm_num [defaultDynamicPolling]

/-- The low-latency branch of `_adapt_polling_parameters`, isolated. -/
theorem adapt_low_branch (cfg : DynamicPollingConfig) (s : AdaptState) (l : ℚ)
    (h1 : ¬ cfg.latency_threshold_high < l) (h2 : l < cfg.latency_threshold_low) :
    adapt_polling_parameters cfg s l =
      { current_poll_timeout := max (s.current_poll_timeout * (4 / 5)) cfg.poll_timeout_min,
        current_max_batch_size :=
          min (pyInt ((s.current_max_batch_size : ℚ) * (6 / 5))) cfg.batch_size_max } := by
  simp [adapt_polling_parameters, h1, h2]

/-- The batch-size update of the low-latency branch as a single map. -/
def lowBatchStep (cfg : DynamicPollingConfig) (b : ℤ) : ℤ :=
  min (pyInt ((b : ℚ) * (6 / 5))) cfg.batch_size_max

/-- Running `n` consecutive low-latency adaptations applies the poll and
batch one-step maps `n` times. -/
theorem runAdapt_low_const (cfg : DynamicPollingConfig) (L : ℚ)
    (h1 : ¬ cfg.latency_threshold_high < L) (h2 : L < cfg.latency_threshold_low) :
    ∀ (n : ℕ) (s : AdaptState),
      runAdapt cfg s (List.replicate n L) =
        { current_poll_timeout :=
            (fun p => max (p * (4 / 5)) cfg.poll_timeout_min)^[n] s.current_poll_timeout,
          current_max_batch_size := (lowBatchStep cfg)^[n] s.current_max_batch_size } := by
  intro n
  induction n with
  | zero => intro s; simp [runAdapt_nil]
  | succ k ih =>
    intro s
    rw [List.replicate_succ, runAdapt_cons, adapt_low_branch cfg s L h1 h2, ih]
    rw [Function.iterate_succ_apply, Function.iterate_succ_apply]
    rfl

/-- Folding the low-latency poll-timeout map: `n + 1` iterations from `p0`
give `max (p0 * (4/5)^(n+1)) m` when the floor value `m` is nonnegative. -/
theorem iterate_low_poll (m : ℚ) (hm : 0 ≤ m) (p0 : ℚ) :
    ∀ n : ℕ, (fun p => max (p * (4 / 5)) m)^[n + 1] p0 = max (p0 * (4 / 5) ^ (n + 1)) m := by
  intro n
  induction n with
  | zero => simp
  | succ k ih =>
    rw [Function.iterate_succ_apply', ih]
    show max (max (p0 * (4 / 5) ^ (k + 1)) m * (4 / 5)) m = _
    rw [max_mul_of_nonneg _ _ (show (0 : ℚ) ≤ 4 / 5 by norm_num)]
    rw [max_assoc, max_eq_right (show m * (4 / 5) ≤ m by nlinarith)]
    congr 1
    ring

/-- Claim C7 as stated is false on the code: at the loader defaults
(initial batch size 500, `batch_size_max = 2000`), five consecutive
low-latency updates yield `current_max_batch_size = 1243`, whereas the
claimed formula `min(batch_size_max, ⌊initial × 1.2^5⌋)` gives
`min(2000, ⌊1244.16⌋) = 1244`: applying `int(_ × 1.2)` at every step loses
fractional parts that the single-power formula keeps. -/
theorem c7_batch_power_formula_counterexample :
    (runAdapt defaultDynamicPolling (initAdaptState 1 500)
        (List.replicate 5 (1 / 10))).current_max_batch_size = 1243 ∧
    ¬ ((runAdapt defaultDynamicPolling (initAdaptState 1 500)
        (List.replicate 5 (1 / 10))).current_max_batch_size =
      min defaultDynamicPolling.batch_size_max (pyInt ((500 : ℚ) * (6 / 5) ^ 5))) := by
  have h1 : ¬ defaultDynamicPolling.latency_threshold_high < (1 : ℚ) / 10 := by
    norm_num [defaultDynamicPolling]
  have h2 : (1 : ℚ) / 10 < defaultDynamicPolling.latency_threshold_low := by
    norm_num [defaultDynamicPolling]
  have e1 : adapt_polling_parameters defaultDynamicPolling (initAdaptState 1 500) (1 / 10) =
      ⟨4 / 5, 600⟩ := by
    rw [adapt_low_branch _ _ _ h1 h2]
    norm_num [initAdaptState, defaultDynamicPolling, pyInt, AdaptState.mk.injEq]
  have e2 : adapt_polling_parameters defaultDynamicPolling ⟨4 / 5, 600⟩ (1 / 10) =
      ⟨16 / 25, 720⟩ := by
    rw [adapt_low_branch _ _ _ h1 h2]
    norm_num [defaultDynamicPolling, pyInt, AdaptState.mk.injEq]
  have e3 : adapt_polling_parameters defaultDynamicPolling ⟨16 / 25, 720⟩ (1 / 10) =
      ⟨64 / 125, 864⟩ := by
    rw [adapt_low_branch _ _ _ h1 h2]
    norm_num [defaultDynamicPolling, pyInt, AdaptState.mk.injEq]
  have e4 : adapt_polling_parameters defaultDynamicPolling ⟨64 / 125, 864⟩ (1 / 10) =
      ⟨1 / 2, 1036⟩ := by
    rw [adapt_low_branch _ _ _ h1 h2]
    norm_num [defaultDynamicPolling, pyInt, AdaptState.mk.injEq]
  have e5 : adapt_polling_parameters defaultDynamicPolling ⟨1 / 2, 1036⟩ (1 / 10) =
      ⟨1 / 2, 1243⟩ := by
    rw [adapt_low_branch _ _ _ h1 h2]
    norm_num [defaultDynamicPolling, pyInt, AdaptState.mk.injEq]
  have hrun : runAdapt defaultDynamicPolling (initAdaptState 1 500)
      (List.replicate 5 (1 / 10)) = ⟨1 / 2, 1243⟩ := by
    show runAdapt defaultDynamicPolling (initAdaptState 1 500)
      [1 / 10, 1 / 10, 1 / 10, 1 / 10, 1 / 10] = ⟨1 / 2, 1243⟩
    rw [runAdapt_cons, e1, runAdapt_cons, e2, runAdapt_cons, e3, runAdapt_cons, e4,
      runAdapt_cons, e5, runAdapt_nil]
  rw [hrun]
  refine ⟨rfl, ?_⟩
  norm_num [defaultDynamicPolling, pyInt]

/-- Claim C7 (amended): the adaptive update follows the stated rule (it is
the function `adapt_polling_parameters`); after 5 consecutive updates with
latency below `latency_threshold_low` (and not above
`latency_threshold_high`), starting with `0 ≤ poll_timeout_min`,
`current_poll_timeout = max(initial × 0.8^5, poll_timeout_min)` as claimed,
but `current_max_batch_size` is the five-fold iterate of
`b ↦ min(⌊b × 1.2⌋, batch_size_max)`, which can differ from
`min(batch_size_max, ⌊initial × 1.2^5⌋)` (1243 versus 1244 at the loader
defaults, see the counterexample). -/
theorem c7_five_low_latency_updates (cfg : DynamicPollingConfig) (p0 : ℚ) (b0 : ℤ) (L : ℚ)
    (h1 : ¬ cfg.latency_threshold_high < L) (h2 : L < cfg.latency_threshold_low)
    (hpm : 0 ≤ cfg.poll_timeout_min) :
    (runAdapt cfg (initAdaptState p0 b0) (List.replicate 5 L)).current_poll_timeout =
      max (p0 * (4 / 5) ^ 5) cfg.poll_timeout_min ∧
    (runAdapt cfg (initAdaptState p0 b0) (List.replicate 5 L)).current_max_batch_size =
      (lowBatchStep cfg)^[5] b0 := by
  rw [runAdapt_low_const cfg L h1 h2 5 (initAdaptState p0 b0)]
  exact ⟨iterate_low_poll cfg.poll_timeout_min hpm p0 4, rfl⟩

/-- Witness for C7 (amended) at the loader defaults with initial poll
timeout 1 and initial batch size 500. -/
theorem c7_five_low_latency_updates_witness :
    (runAdapt defaultDynamicPolling (initAdaptState 1 500)
        (List.replicate 5 (1 / 10))).current_poll_timeout =
      max ((1 : ℚ) * (4 / 5) ^ 5) defaultDynamicPolling.poll_timeout_min ∧
    (runAdapt defaultDynamicPolling (initAdaptState 1 500)
        (List.replicate 5 (1 / 10))).current_max_batch_size =
      (lowBatchStep defaultDynamicPolling)^[5] 500 :=
  c7_five_low_latency_updates defaultDynamicPolling 1 500 (1 / 10)
    (by norm_num [defaultDynamicPolling]) (by norm_num [defaultDynamicPolling])
    (by norm_num [defaultDynamicPolling])

/-! ## Record validation — src/src/models/data_models.py and
`MessageProcessor.parse_message` / `process_message` -/

/-- A raw timestamp field in the decoded JSON object: an integer epoch, a
string, or an already-parsed instant (other values are passed through by the
`mode = before` validator). -/
inductive RawTimestamp where
  | asInt (n : ℤ)
  | asStr (s : String)
  | asDatetime (t : ℤ)
deriving DecidableEq, Repr

/-- The decoded JSON object before validation (field order follows
`MarketDataPoint` in src/src/models/data_models.py). -/
structure RawMarketData where
  event_time : RawTimestamp
  symbol : String
  open_price : ℚ
  high_price : ℚ
  low_price : ℚ
  close_price : ℚ
  volume : ℚ
  start_time : RawTimestamp
  timestamp : RawTimestamp
deriving DecidableEq, Repr

/-- The validated `MarketDataPoint` (instants as integers). -/
structure MarketDataPoint where
  event_time : ℤ
  symbol : String
  open_price : ℚ
  high_price : ℚ
  low_price : ℚ
  close_price : ℚ
  volume : ℚ
  start_time : ℤ
  timestamp : ℤ
deriving DecidableEq, Repr

/-- `MarketDataPoint.validate_timestamps`: integer values go through
`datetime.fromtimestamp`, strings through `datetime.fromisoformat`; both
library parsers can fail and are abstracted as the parameters. -/
def validate_timestamps (fromtimestamp : ℤ → Option ℤ) (fromisoformat : String → Option ℤ) :
    RawTimestamp → Option ℤ
  | .asInt n => fromtimestamp n
  | .asStr s => fromisoformat s
  | .asDatetime t => some t

/-- `MarketDataPoint.validate_numeric_fields`: negative values are
rejected. -/
def validate_numeric_fields (v : ℚ) : Option ℚ :=
  if v < 0 then none else some v

/-- Python `str.upper()` (ASCII): upper-case every character.  This is the
same function as `String.toUpper` (a map of `Char.toUpper` over the
characters), written structurally over the character list. -/
def pyUpper (s : String) : String := String.mk (s.data.map Char.toUpper)

/-- `MarketDataPoint.validate_symbol`: empty or overlong (> 20 characters)
symbols are rejected; accepted symbols are upper-cased. -/
def validate_symbol (v : String) : Option String :=
  if v = "" ∨ 20 < v.length then none else some (pyUpper v)

/-- Building a validated `MarketDataPoint` from a decoded object: if any
field validator fails, the whole record is rejected. -/
def mkMarketDataPoint (fromtimestamp : ℤ → Option ℤ) (fromisoformat : String → Option ℤ)
    (r : RawMarketData) : Option MarketDataPoint := do
  let et ← validate_timestamps fromtimestamp fromisoformat r.event_time
  let sym ← validate_symbol r.symbol
  let op ← validate_numeric_fields r.open_price
  let hi ← validate_numeric_fields r.high_price
  let lo ← validate_numeric_fields r.low_price
  let cl ← validate_numeric_fields r.close_price
  let vol ← validate_numeric_fields r.volume
  let st ← validate_timestamps fromtimestamp fromisoformat r.start_time
  let ts ← validate_timestamps fromtimestamp fromisoformat r.timestamp
  some { event_time := et, symbol := sym, open_price := op, high_price := hi,
         low_price := lo, close_price := cl, volume := vol, start_time := st,
         timestamp := ts }

/-- A raw message as `parse_message` sees it: not decodable as JSON, or a
decoded object. -/
inductive RawMessage where
  | undecodable
  | decoded (r : RawMarketData)
deriving DecidableEq, Repr

/-- The observable processor state for the per-record path: the records
buffer and the `invalid_messages` counter. -/
structure ProcState where
  records_buffer : List MarketDataPoint
  invalid_messages : Nat
deriving DecidableEq, Repr

/-- `MessageProcessor.parse_message`: JSON-decode failures and validation
failures both yield `None`. -/
def parse_message (fromtimestamp : ℤ → Option ℤ) (fromisoformat : String → Option ℤ) :
    RawMessage → Option MarketDataPoint
  | .undecodable => none
  | .decoded r => mkMarketDataPoint fromtimestamp fromisoformat r

/-- `MessageProcessor.process_message`, restricted to its buffer and counter
effects: a rejected record bumps `invalid_messages` (done inside
`parse_message` in the source); an accepted record is appended to the
buffer.  The flush step is modelled separately. -/
def process_message (fromtimestamp : ℤ → Option ℤ) (fromisoformat : String → Option ℤ)
    (p : ProcState) (msg : RawMessage) : ProcState :=
  match parse_message fromtimestamp fromisoformat msg with
  | none => { p with invalid_messages := p.invalid_messages + 1 }
  | some d => { p with records_buffer := p.records_buffer ++ [d] }

/-- Inversion: a successfully validated record determines each validator's
output. -/
theorem mkMarketDataPoint_some_fields (fromtimestamp : ℤ → Option ℤ)
    (fromisoformat : String → Option ℤ) (r : RawMarketData) (d : MarketDataPoint)
    (h : mkMarketDataPoint fromtimestamp fromisoformat r = some d) :
    validate_timestamps fromtimestamp fromisoformat r.event_time = some d.event_time ∧
    validate_symbol r.symbol = some d.symbol ∧
    validate_numeric_fields r.open_price = some d.open_price ∧
    validate_numeric_fields r.high_price = some d.high_price ∧
    validate_numeric_fields r.low_price = some d.low_price ∧
    validate_numeric_fields r.close_price = some d.close_price ∧
    validate_numeric_fields r.volume = some d.volume ∧
    validate_timestamps fromtimestamp fromisoformat r.start_time = some d.start_time ∧
    validate_timestamps fromtimestamp fromisoformat r.timestamp = some d.timestamp := by
  simp only [mkMarketDataPoint, bind, Option.bind_eq_some, Option.some.injEq] at h
  obtain ⟨et, h1, sym, h2, op, h3, hi, h4, lo, h5, cl, h6, vol, h7, st, h8, ts, h9, hd⟩ := h
  subst hd
  exact ⟨h1, h2, h3, h4, h5, h6, h7, h8, h9⟩

/-- Claim C8: if any field fails validation (negative price or volume, empty
or overlong symbol, unparsable timestamp) the whole record is rejected,
counted as invalid, and never appended to the buffer; every accepted record
has its symbol upper-cased before entering the buffer. -/
theorem c8_validation_rejects_and_normalizes (fromtimestamp : ℤ → Option ℤ)
    (fromisoformat : String → Option ℤ) (p : ProcState) (r : RawMarketData) :
    ((r.open_price < 0 ∨ r.high_price < 0 ∨ r.low_price < 0 ∨ r.close_price < 0 ∨
        r.volume < 0 ∨ r.symbol = "" ∨ 20 < r.symbol.length ∨
        validate_timestamps fromtimestamp fromisoformat r.event_time = none ∨
        validate_timestamps fromtimestamp fromisoformat r.start_time = none ∨
        validate_timestamps fromtimestamp fromisoformat r.timestamp = none) →
      parse_message fromtimestamp fromisoformat (.decoded r) = none ∧
      process_message fromtimestamp fromisoformat p (.decoded r) =
        { p with invalid_messages := p.invalid_messages + 1 }) ∧
    (∀ d : MarketDataPoint,
      parse_message fromtimestamp fromisoformat (.decoded r) = some d →
      d.symbol = pyUpper r.symbol ∧
      process_message fromtimestamp fromisoformat p (.decoded r) =
        { p with records_buffer := p.records_buffer ++ [d] }) := by
  constructor
  · intro hdisj
    cases hmk : mkMarketDataPoint fromtimestamp fromisoformat r with
    | none =>
      constructor
      · simpa [parse_message] using hmk
      · simp [process_message, parse_message, hmk]
    | some d =>
      exfalso
      obtain ⟨h1, h2, h3, h4, h5, h6, h7, h8, h9⟩ :=
        mkMarketDataPoint_some_fields fromtimestamp fromisoformat r d hmk
      rcases hdisj with hc | hc | hc | hc | hc | hc | hc | hc | hc | hc
      · simp [validate_numeric_fields, hc] at h3
      · simp [validate_numeric_fields, hc] at h4
      · simp [validate_numeric_fields, hc] at h5
      · simp [validate_numeric_fields, hc] at h6
      · simp [validate_numeric_fields, hc] at h7
      · simp [validate_symbol, hc] at h2
      · simp [validate_symbol, hc] at h2
      · rw [hc] at h1; exact Option.noConfusion h1
      · rw [hc] at h8; exact Option.noConfusion h8
      · rw [hc] at h9; exact Option.noConfusion h9
  · intro d hd
    have hmk : mkMarketDataPoint fromtimestamp fromisoformat r = some d := hd
    obtain ⟨h1, h2, h3, h4, h5, h6, h7, h8, h9⟩ :=
      mkMarketDataPoint_some_fields fromtimestamp fromisoformat r d hmk
    constructor
    · by_cases hrej : r.symbol = "" ∨ 20 < r.symbol.length
      · simp [validate_symbol, hrej] at h2
      · simp only [validate_symbol, if_neg hrej, Option.some.injEq] at h2
        exact h2.symm
    · simp [process_message, parse_message, hmk]

/-- Witness for C8: a record with `volume = -1` is rejected and counted; the
record with the same shape and `volume = 10` is accepted with the symbol
upper-cased to BTC-USD. -/
theorem c8_validation_rejects_and_normalizes_witness :
    process_message (fun n => some n) (fun _ => none) ⟨[], 0⟩
        (.decoded { event_time := .asDatetime 0, symbol := "btc-usd", open_price := 1,
                    high_price := 2, low_price := 0, close_price := 2,
                    volume := -1, start_time := .asDatetime 0, timestamp := .asDatetime 0 }) =
      ⟨[], 1⟩ ∧
    ∃ d : MarketDataPoint,
      parse_message (fun n => some n) (fun _ => none)
          (.decoded { event_time := .asDatetime 0, symbol := "btc-usd", open_price := 1,
                      high_price := 2, low_price := 0, close_price := 2,
                      volume := 10, start_time := .asDatetime 0,
                      timestamp := .asDatetime 0 }) = some d ∧
      d.symbol = "BTC-USD" := by
  constructor
  · exact ((c8_validation_rejects_and_normalizes (fun n => some n) (fun _ => none) ⟨[], 0⟩
      _).1 (by norm_num)).2
  · have happ := (c8_validation_rejects_and_normalizes (fun n => some n) (fun _ => none)
      (⟨[], 0⟩ : ProcState)
      { event_time := .asDatetime 0, symbol := "btc-usd", open_price := 1,
        high_price := 2, low_price := 0, close_price := 2, volume := 10,
        start_time := .asDatetime 0, timestamp := .asDatetime 0 }).2
      (MarketDataPoint.mk 0 ("BTC-USD") 1 2 0 2 10 0 0) (by decide)
    exact ⟨MarketDataPoint.mk 0 ("BTC-USD") 1 2 0 2 10 0 0, by decide, happ.1⟩

/-! ## Database writer — src/src/core/database.py -/

/-- Environment choice for one `_do_insert` call: both sink writes succeed,
or the flush of the queued records raises, or the insert of the new records
raises (after the queue flush succeeded and the queue was cleared). -/
inductive SinkOutcome where
  | ok
  | failOnQueueFlush
  | failOnRecords
deriving DecidableEq, Repr

/-- State of `DatabaseManager` (`__init__`): the retry queue (records are
opaque, type `α`), its capacity, the `batch_stats` counters that the
queueing claims mention, and the circuit breaker. -/
structure Manager (α : Type) where
  retry_queue : List α
  max_retry_queue_size : Nat
  total_processed : Nat
  total_dropped : Nat
  breaker : Breaker
deriving DecidableEq, Repr

/-- `DatabaseManager.__init__`: empty queue, capacity 10000, zeroed
counters. -/
def initManager (α : Type) (t0 : ℚ) : Manager α :=
  { retry_queue := [], max_retry_queue_size := 10000, total_processed := 0,
    total_dropped := 0, breaker := initBreaker t0 }

/-- The try-block of `insert_batch`: `circuit_breaker.execute(_do_insert)`
followed by the `if result is None` queueing step.  `.error` carries the
raised exception together with the manager state at the raise point;
`_do_insert` always returns `None`, so on success `result is None` holds and
the `# Circuit breaker is open` branch runs. -/
def insert_batch_try (cfg : CircuitBreakerConfig) (m : Manager α) (now : ℚ)
    (records : List α) (outcome : SinkOutcome) :
    Except (ExecOutcome × Manager α) (Manager α) :=
  match gate cfg m.breaker now with
  | .rejected w => .error (.circuitOpenError w, m)
  | .proceed b1 =>
    match outcome with
    | .ok =>
      let flushed : Manager α :=
        { m with retry_queue := [],
                 total_processed := m.total_processed + m.retry_queue.length + records.length,
                 breaker := handle_success b1 now }
      if flushed.retry_queue.length + records.length ≤ m.max_retry_queue_size then
        .ok { flushed with retry_queue := flushed.retry_queue ++ records }
      else
        .ok flushed
    | .failOnQueueFlush =>
      .error (.circuitFailureError, { m with breaker := handle_failure cfg b1 now })
    | .failOnRecords =>
      .error (.circuitFailureError,
        { m with retry_queue := [],
                 total_processed := m.total_processed + m.retry_queue.length,
                 breaker := handle_failure cfg b1 now })

/-- `DatabaseManager.insert_batch`: empty batches return immediately; the
whole try-block sits inside `except Exception: logger.error(...)`, so every
raised error is swallowed and the state reached at the raise point is kept —
no error channel exists toward the caller. -/
def insert_batch (cfg : CircuitBreakerConfig) (m : Manager α) (now : ℚ)
    (records : List α) (outcome : SinkOutcome) : Manager α :=
  if records.isEmpty then m
  else
    match insert_batch_try cfg m now records outcome with
    | .ok m1 => m1
    | .error e => e.2

/-- One `insert_batch` call: its instant, batch and sink outcome. -/
structure InsertCall (α : Type) where
  now : ℚ
  records : List α
  outcome : SinkOutcome

/-- A sequence of `insert_batch` calls. -/
def runManager (cfg : CircuitBreakerConfig) (m : Manager α) (calls : List (InsertCall α)) :
    Manager α :=
  calls.foldl (fun acc c => insert_batch cfg acc c.now c.records c.outcome) m

theorem runManager_nil (cfg : CircuitBreakerConfig) (m : Manager α) :
    runManager cfg m [] = m := rfl

theorem runManager_cons (cfg : CircuitBreakerConfig) (m : Manager α) (c : InsertCall α)
    (calls : List (InsertCall α)) :
    runManager cfg m (c :: calls) =
      runManager cfg (insert_batch cfg m c.now c.records c.outcome) calls := rfl

/-- Per-call facts about `insert_batch`: the capacity field never changes,
`total_dropped` is never incremented, and the resulting queue is either
bounded by the capacity or left untouched. -/
theorem insert_batch_step_facts (cfg : CircuitBreakerConfig) (m : Manager α) (now : ℚ)
    (records : List α) (outcome : SinkOutcome) :
    (insert_batch cfg m now records outcome).max_retry_queue_size = m.max_retry_queue_size ∧
    (insert_batch cfg m now records outcome).total_dropped = m.total_dropped ∧
    ((insert_batch cfg m now records outcome).retry_queue.length ≤ m.max_retry_queue_size ∨
      (insert_batch cfg m now records outcome).retry_queue = m.retry_queue) := by
  unfold insert_batch insert_batch_try
  cases hre : records.isEmpty
  · simp only [Bool.false_eq_true, if_false]
    cases hg : gate cfg m.breaker now with
    | rejected w => simp
    | proceed b1 =>
      cases outcome with
      | ok =>
        by_cases hcap : records.length ≤ m.max_retry_queue_size
        · simp [hcap]
        · simp [hcap]
      | failOnQueueFlush => simp
      | failOnRecords => simp
  · simp

/-- The retry-queue bound is preserved along any sequence of calls. -/
theorem runManager_queue_bound (cfg : CircuitBreakerConfig) (calls : List (InsertCall α)) :
    ∀ m : Manager α, m.retry_queue.length ≤ m.max_retry_queue_size →
      (runManager cfg m calls).retry_queue.length ≤
        (runManager cfg m calls).max_retry_queue_size ∧
      (runManager cfg m calls).max_retry_queue_size = m.max_retry_queue_size ∧
      (runManager cfg m calls).total_dropped = m.total_dropped := by
  induction calls with
  | nil => intro m h; exact ⟨h, rfl, rfl⟩
  | cons c rest ih =>
    intro m h
    rw [runManager_cons]
    obtain ⟨hmax, hdrop, hqueue⟩ :=
      insert_batch_step_facts cfg m c.now c.records c.outcome
    have hbound : (insert_batch cfg m c.now c.records c.outcome).retry_queue.length ≤
        (insert_batch cfg m c.now c.records c.outcome).max_retry_queue_size := by
      rw [hmax]
      rcases hqueue with hb | hb
      · exact hb
      · rw [hb]; exact h
    obtain ⟨r1, r2, r3⟩ := ih _ hbound
    exact ⟨r1, by rw [r2, hmax], by rw [r3, hdrop]⟩

/-- Claim C1 is a code bug: `execute` raises `CircuitBreakerError` when the
circuit is open, which `insert_batch` catches and only logs — the records are
never queued; and after a successful write `_do_insert` returns `None`, so
the `if result is None: # Circuit breaker is open` branch appends the
just-written records to the retry queue.  Concretely: with the breaker OPEN
(`last_failure_time = 100`, `reset_timeout = 60`) a call at `now = 110` with
records `[7]` leaves the queue empty, while the same call against a CLOSED
breaker (write succeeds) leaves the queue holding `[7]`. -/
theorem c1_circuit_open_queueing_inverted :
    (insert_batch ⟨5, 60⟩ (⟨[], 10000, 0, 0, ⟨.opened, 5, 100, 0⟩⟩ : Manager ℕ)
        110 [7] .ok).retry_queue = [] ∧
    (insert_batch ⟨5, 60⟩ (⟨[], 10000, 0, 0, initBreaker 0⟩ : Manager ℕ)
        1 [7] .ok).retry_queue = [7] := by
  constructor
  · have hres : should_attempt_reset ⟨5, 60⟩ ⟨.opened, 5, 100, 0⟩ 110 = false := by
      simp only [should_attempt_reset, decide_eq_false_iff_not]
      norm_num
    simp [insert_batch, insert_batch_try, gate, hres]
  · simp [insert_batch, insert_batch_try, gate, initBreaker, handle_success]

/-- Claim C2 as stated is false on the code: a call whose sink write is
attempted and fails raises `DatabaseError` inside the breaker, the breaker
wraps it in `CircuitBreakerError`, and `insert_batch` catches it and only
logs — `insert_batch` returns normally and no error reaches the processor.
Concretely: queue `[5]`, records `[7]`, the new-records write fails after the
queue flush succeeded; `insert_batch` returns the post-failure state (queue
cleared by the successful flush, breaker counting one failure) and its type
has no error to propagate. -/
theorem c2_failure_not_propagated_counterexample :
    insert_batch_try ⟨5, 60⟩ (⟨[5], 10000, 0, 0, initBreaker 0⟩ : Manager ℕ)
        1 [7] .failOnRecords =
      .error (.circuitFailureError, ⟨[], 10000, 1, 0, ⟨.closed, 1, 1, 0⟩⟩) ∧
    insert_batch ⟨5, 60⟩ (⟨[5], 10000, 0, 0, initBreaker 0⟩ : Manager ℕ)
        1 [7] .failOnRecords =
      ⟨[], 10000, 1, 0, ⟨.closed, 1, 1, 0⟩⟩ := by
  constructor
  · simp [insert_batch_try, gate, initBreaker, handle_failure]
  · simp [insert_batch, insert_batch_try, gate, initBreaker, handle_failure]

/-- Claim C2 (amended): when the wrapped write is attempted and fails, the
writer does not re-queue the records — the retry queue is left untouched
(or cleared by its own already-successful flush) and the breaker records the
failure — but `insert_batch` swallows the error instead of propagating it:
the call returns normally with that state, so the processor's
`_handle_insert_failure` retry loop is never triggered by a failed insert. -/
theorem c2_circuit_failure_no_requeue_no_propagation (cfg : CircuitBreakerConfig)
    (m : Manager α) (now : ℚ) (records : List α) (outcome : SinkOutcome) (b1 : Breaker)
    (hne : records ≠ []) (hgate : gate cfg m.breaker now = .proceed b1)
    (hfail : outcome ≠ .ok) :
    insert_batch_try cfg m now records outcome =
      .error (.circuitFailureError, insert_batch cfg m now records outcome) ∧
    ((insert_batch cfg m now records outcome).retry_queue = m.retry_queue ∨
      (insert_batch cfg m now records outcome).retry_queue = []) ∧
    (insert_batch cfg m now records outcome).breaker = handle_failure cfg b1 now := by
  have hre : records.isEmpty = false := by
    simpa [List.isEmpty_iff] using hne
  cases outcome with
  | ok => exact absurd rfl hfail
  | failOnQueueFlush =>
    refine ⟨?_, Or.inl ?_, ?_⟩ <;> simp [insert_batch, insert_batch_try, hgate, hre]
  | failOnRecords =>
    refine ⟨?_, Or.inr ?_, ?_⟩ <;> simp [insert_batch, insert_batch_try, hgate, hre]

/-- Witness for C2 (amended): closed breaker, queue `[5]`, records `[7]`,
new-records write fails. -/
theorem c2_circuit_failure_no_requeue_no_propagation_witness :
    insert_batch_try ⟨5, 60⟩ (⟨[5], 10000, 0, 0, initBreaker 0⟩ : Manager ℕ)
        1 [7] .failOnQueueFlush =
      .error (.circuitFailureError,
        insert_batch ⟨5, 60⟩ (⟨[5], 10000, 0, 0, initBreaker 0⟩ : Manager ℕ)
          1 [7] .failOnQueueFlush) ∧
    ((insert_batch ⟨5, 60⟩ (⟨[5], 10000, 0, 0, initBreaker 0⟩ : Manager ℕ)
        1 [7] .failOnQueueFlush).retry_queue = [5] ∨
      (insert_batch ⟨5, 60⟩ (⟨[5], 10000, 0, 0, initBreaker 0⟩ : Manager ℕ)
        1 [7] .failOnQueueFlush).retry_queue = []) ∧
    (insert_batch ⟨5, 60⟩ (⟨[5], 10000, 0, 0, initBreaker 0⟩ : Manager ℕ)
        1 [7] .failOnQueueFlush).breaker = handle_failure ⟨5, 60⟩ (initBreaker 0) 1 :=
  c2_circuit_failure_no_requeue_no_propagation ⟨5, 60⟩
    (⟨[5], 10000, 0, 0, initBreaker 0⟩ : Manager ℕ) 1 [7] .failOnQueueFlush
    (initBreaker 0) (by simp) (by simp [gate, initBreaker]) (by simp)

/-- Claim C5 as stated is false on the code in its counter clause: submitting
10001 records against the fresh manager (capacity 10000, write succeeds)
drops the arriving records but `batch_stats['total_dropped']` stays 0 — the
overflow is only logged, no drop counter is incremented. -/
theorem c5_drop_counter_never_incremented_counterexample :
    (insert_batch ⟨5, 60⟩ (initManager ℕ 0) 1 (List.replicate 10001 0) .ok).retry_queue = [] ∧
    (insert_batch ⟨5, 60⟩ (initManager ℕ 0) 1 (List.replicate 10001 0) .ok).total_dropped = 0 := by
  have key : ∀ L : List ℕ, L.isEmpty = false → L.length = 10001 →
      (insert_batch ⟨5, 60⟩ (initManager ℕ 0) 1 L .ok).retry_queue = [] ∧
      (insert_batch ⟨5, 60⟩ (initManager ℕ 0) 1 L .ok).total_dropped = 0 := by
    intro L hre hlen
    constructor <;>
      simp [insert_batch, insert_batch_try, gate, initManager, initBreaker, hre, hlen]
  refine key _ ?_ (List.length_replicate 10001 0)
  rw [List.isEmpty_eq_false]
  intro h
  have hlen := congrArg List.length h
  rw [List.length_replicate] at hlen
  simp at hlen

/-- Claim C5 (amended): `|retry_queue| ≤ Q_max` (10000) holds at every point
of every execution, and `total_dropped` is never incremented; appending only
happens right after the queued records were successfully flushed and
cleared, and when the arriving records alone would exceed the capacity they
are not appended (the overflow is only logged) and nothing already queued is
evicted by the append logic. -/
theorem c5_retry_queue_bounded (cfg : CircuitBreakerConfig) (t0 : ℚ)
    (calls : List (InsertCall α)) (m : Manager α) (now : ℚ) (records : List α)
    (b1 : Breaker) (hgate : gate cfg m.breaker now = .proceed b1)
    (hover : m.max_retry_queue_size < records.length) :
    ((runManager cfg (initManager α t0) calls).retry_queue.length ≤ 10000 ∧
      (runManager cfg (initManager α t0) calls).total_dropped = 0) ∧
    ((insert_batch cfg m now records .ok).retry_queue = [] ∧
      (insert_batch cfg m now records .ok).total_dropped = m.total_dropped) := by
  constructor
  · obtain ⟨r1, r2, r3⟩ := runManager_queue_bound cfg calls (initManager α t0)
      (by simp [initManager])
    constructor
    · have : (runManager cfg (initManager α t0) calls).max_retry_queue_size = 10000 := by
        rw [r2]; rfl
      rw [← this]; exact r1
    · rw [r3]; rfl
  · have hne : records ≠ [] := by
      intro hnil
      rw [hnil] at hover
      simp at hover
    have hre : records.isEmpty = false := by
      simpa [List.isEmpty_iff] using hne
    have hcap : ¬ (records.length ≤ m.max_retry_queue_size) := not_le.mpr hover
    constructor <;> simp [insert_batch, insert_batch_try, hgate, hre, hcap]

/-- Witness for C5 (amended): two calls from the fresh manager (one
successful write of `[7]`, one rejected call), plus an overflow call with
capacity 2 and three records. -/
theorem c5_retry_queue_bounded_witness :
    ((runManager ⟨5, 60⟩ (initManager ℕ 0)
        [⟨1, [7], .ok⟩, ⟨2, [8], .failOnQueueFlush⟩]).retry_queue.length ≤ 10000 ∧
      (runManager ⟨5, 60⟩ (initManager ℕ 0)
        [⟨1, [7], .ok⟩, ⟨2, [8], .failOnQueueFlush⟩]).total_dropped = 0) ∧
    ((insert_batch ⟨5, 60⟩ (⟨[], 2, 0, 0, initBreaker 0⟩ : Manager ℕ)
        1 [1, 2, 3] .ok).retry_queue = [] ∧
      (insert_batch ⟨5, 60⟩ (⟨[], 2, 0, 0, initBreaker 0⟩ : Manager ℕ)
        1 [1, 2, 3] .ok).total_dropped = 0) :=
  c5_retry_queue_bounded ⟨5, 60⟩ 0 [⟨1, [7], .ok⟩, ⟨2, [8], .failOnQueueFlush⟩]
    (⟨[], 2, 0, 0, initBreaker 0⟩ : Manager ℕ) 1 [1, 2, 3] (initBreaker 0)
    (by simp [gate, initBreaker]) (by simp)

/-! ## Sink upsert merge — the SQL of `DatabaseManager._insert_records` -/

/-- One row of the `candles` table (`open` is rendered `open_` because
`open` is a Lean keyword). -/
@[ext]
structure CandleRow where
  open_ : ℚ
  high : ℚ
  low : ℚ
  close : ℚ
  volume : ℚ
deriving DecidableEq, Repr

/-- The `ON CONFLICT (time, symbol) DO UPDATE` merge rule: last-writer-wins
for `open`, `close` and `volume`; `GREATEST` for `high`; `LEAST` for
`low`. -/
def mergeRow (existing incoming : CandleRow) : CandleRow :=
  { open_ := incoming.open_, high := max existing.high incoming.high,
    low := min existing.low incoming.low, close := incoming.close,
    volume := incoming.volume }

/-- The sink table keyed by `(time, symbol)`. -/
def CandleTable : Type := ℤ × String → Option CandleRow

/-- One execution of the upsert statement with row `r` at key `k`: insert
when the key is absent, otherwise apply the merge rule. -/
def upsertCandle (t : CandleTable) (k : ℤ × String) (r : CandleRow) : CandleTable :=
  fun q =>
    if q = k then
      some (match t k with
            | none => r
            | some e => mergeRow e r)
    else t q

/-- `executemany` executes the statement once per row, in order. -/
def upsertMany (t : CandleTable) (k : ℤ × String) (rs : List CandleRow) : CandleTable :=
  rs.foldl (fun acc r => upsertCandle acc k r) t

/-- The last row of `d :: rs`. -/
def lastD : List CandleRow → CandleRow → CandleRow
  | [], d => d
  | r :: rest, _ => lastD rest r

theorem lastD_congr (f : CandleRow → ℚ) :
    ∀ (rest : List CandleRow) (d1 d2 : CandleRow), f d1 = f d2 →
      f (lastD rest d1) = f (lastD rest d2) := by
  intro rest
  cases rest with
  | nil => intro d1 d2 h; exact h
  | cons r rest => intro d1 d2 _; rfl

/-- Folding the merge rule: the last-writer-wins fields come from the last
submission. -/
theorem foldl_merge_lww (f : CandleRow → ℚ) (hf : ∀ a b, f (mergeRow a b) = f b) :
    ∀ (rs : List CandleRow) (b : CandleRow),
      f (rs.foldl mergeRow b) = f (lastD rs b) := by
  intro rs
  induction rs with
  | nil => intro b; rfl
  | cons r rest ih =>
    intro b
    show f (rest.foldl mergeRow (mergeRow b r)) = f (lastD rest r)
    rw [ih (mergeRow b r)]
    exact lastD_congr f rest (mergeRow b r) r (hf b r)

/-- Folding the merge rule: `high` accumulates the maximum. -/
theorem foldl_merge_high :
    ∀ (rs : List CandleRow) (b : CandleRow),
      (rs.foldl mergeRow b).high = rs.foldl (fun a x => max a x.high) b.high := by
  intro rs
  induction rs with
  | nil => intro b; rfl
  | cons r rest ih =>
    intro b
    show (rest.foldl mergeRow (mergeRow b r)).high = rest.foldl (fun a x => max a x.high)
      (max b.high r.high)
    rw [ih (mergeRow b r)]
    rfl

/-- Folding the merge rule: `low` accumulates the minimum. -/
theorem foldl_merge_low :
    ∀ (rs : List CandleRow) (b : CandleRow),
      (rs.foldl mergeRow b).low = rs.foldl (fun a x => min a x.low) b.low := by
  intro rs
  induction rs with
  | nil => intro b; rfl
  | cons r rest ih =>
    intro b
    show (rest.foldl mergeRow (mergeRow b r)).low = rest.foldl (fun a x => min a x.low)
      (min b.low r.low)
    rw [ih (mergeRow b r)]
    rfl

/-- Upserting a list of rows at a key that already holds `e` folds the merge
rule over the list, starting from `e`. -/
theorem upsertMany_apply_same :
    ∀ (rs : List CandleRow) (t : CandleTable) (k : ℤ × String) (e : CandleRow),
      t k = some e → upsertMany t k rs k = some (rs.foldl mergeRow e) := by
  intro rs
  induction rs with
  | nil => intro t k e h; simpa [upsertMany] using h
  | cons r rest ih =>
    intro t k e h
    show upsertMany (upsertCandle t k r) k rest k = _
    rw [ih (upsertCandle t k r) k (mergeRow e r) (by simp [upsertCandle, h])]
    rfl

theorem upsertMany_apply_other :
    ∀ (rs : List CandleRow) (t : CandleTable) (k q : ℤ × String), q ≠ k →
      upsertMany t k rs q = t q := by
  intro rs
  induction rs with
  | nil => intro t k q _; rfl
  | cons r rest ih =>
    intro t k q hq
    show upsertMany (upsertCandle t k r) k rest q = _
    rw [ih (upsertCandle t k r) k q hq]
    simp [upsertCandle, hq]

/-- Upserting the same row twice is the same as upserting it once. -/
theorem upsertCandle_idem (t : CandleTable) (k : ℤ × String) (r : CandleRow) :
    upsertCandle (upsertCandle t k r) k r = upsertCandle t k r := by
  funext q
  by_cases hq : q = k
  · subst hq
    show upsertCandle (upsertCandle t q r) q r q = upsertCandle t q r q
    have hcur : upsertCandle t q r q =
        some (match t q with | none => r | some e => mergeRow e r) := by
      simp [upsertCandle]
    rw [upsertCandle, if_pos rfl, hcur]
    cases ht : t q with
    | none =>
      simp only [ht]
      congr 1
      ext <;> simp [mergeRow]
    | some e =>
      simp only [ht]
      congr 1
      ext <;> simp [mergeRow, max_assoc, min_assoc]
  · simp [upsertCandle, hq]

/-- Claim C9: submitting `r :: rs` under one `(time, symbol)` key yields
exactly one row for that key — `open`, `close`, `volume` from the last
submission, `high` the maximum of the prior high (when a row existed) and
all submitted highs, `low` the corresponding minimum — other keys are
untouched, and submitting the same row `n + 1` times equals submitting it
once. -/
theorem c9_upsert_merge_fold (t : CandleTable) (k : ℤ × String) (r : CandleRow)
    (rs : List CandleRow) :
    upsertMany t k (r :: rs) k =
      some { open_ := (lastD rs r).open_,
             high := rs.foldl (fun a x => max a x.high)
               (match t k with | none => r.high | some e => max e.high r.high),
             low := rs.foldl (fun a x => min a x.low)
               (match t k with | none => r.low | some e => min e.low r.low),
             close := (lastD rs r).close,
             volume := (lastD rs r).volume } ∧
    (∀ q : ℤ × String, q ≠ k → upsertMany t k (r :: rs) q = t q) ∧
    (∀ n : ℕ, upsertMany t k (List.replicate (n + 1) r) = upsertMany t k [r]) := by
  refine ⟨?_, ?_, ?_⟩
  · have hb0 : upsertCandle t k r k =
        some (match t k with | none => r | some e => mergeRow e r) := by
      simp [upsertCandle]
    have h1 := upsertMany_apply_same rs (upsertCandle t k r) k _ hb0
    show upsertMany (upsertCandle t k r) k rs k = _
    rw [h1]
    congr 1
    have hopen : ∀ a b : CandleRow, (mergeRow a b).open_ = b.open_ := fun _ _ => rfl
    have hclose : ∀ a b : CandleRow, (mergeRow a b).close = b.close := fun _ _ => rfl
    have hvolume : ∀ a b : CandleRow, (mergeRow a b).volume = b.volume := fun _ _ => rfl
    cases ht : t k with
    | none =>
      ext
      · rw [foldl_merge_lww (fun x => x.open_) hopen]
      · rw [foldl_merge_high]
      · rw [foldl_merge_low]
      · rw [foldl_merge_lww (fun x => x.close) hclose]
      · rw [foldl_merge_lww (fun x => x.volume) hvolume]
    | some e =>
      ext
      · rw [foldl_merge_lww (fun x => x.open_) hopen]
        exact lastD_congr (fun x => x.open_) rs (mergeRow e r) r rfl
      · rw [foldl_merge_high]; rfl
      · rw [foldl_merge_low]; rfl
      · rw [foldl_merge_lww (fun x => x.close) hclose]
        exact lastD_congr (fun x => x.close) rs (mergeRow e r) r rfl
      · rw [foldl_merge_lww (fun x => x.volume) hvolume]
        exact lastD_congr (fun x => x.volume) rs (mergeRow e r) r rfl
  · intro q hq
    exact upsertMany_apply_other (r :: rs) t k q hq
  · have key : ∀ (n : ℕ) (t1 : CandleTable),
        upsertMany t1 k (List.replicate (n + 1) r) = upsertMany t1 k [r] := by
      intro n
      induction n with
      | zero => intro t1; rfl
      | succ j ih =>
        intro t1
        show upsertMany (upsertCandle t1 k r) k (List.replicate (j + 1) r) = _
        rw [ih (upsertCandle t1 k r)]
        show upsertCandle (upsertCandle t1 k r) k r = _
        rw [upsertCandle_idem]
        rfl
    intro n
    exact key n t

/-- Witness for C9 at the spec's own scenario: two submissions at one key,
first `(open 100, high 110, low 95, close 105, volume 5)` then
`(open 106, high 108, low 90, close 103, volume 7)`, into an empty table:
the key holds exactly `(106, 110, 90, 103, 7)`, other keys stay empty, and a
duplicate submission is idempotent. -/
theorem c9_upsert_merge_fold_witness :
    upsertMany (fun _ => none) (0, "BTC-USD")
        [⟨100, 110, 95, 105, 5⟩, ⟨106, 108, 90, 103, 7⟩] (0, "BTC-USD") =
      some ⟨106, 110, 90, 103, 7⟩ ∧
    upsertMany (fun _ => none) (0, "BTC-USD")
        [⟨100, 110, 95, 105, 5⟩, ⟨106, 108, 90, 103, 7⟩] (1, "ETH-USD") = none ∧
    upsertMany (fun _ => none) (0, "BTC-USD")
        (List.replicate 2 (⟨100, 110, 95, 105, 5⟩ : CandleRow)) =
      upsertMany (fun _ => none) (0, "BTC-USD") [⟨100, 110, 95, 105, 5⟩] := by
  refine ⟨?_, ?_, ?_⟩
  · have h := (c9_upsert_merge_fold (fun _ => none) (0, "BTC-USD")
      ⟨100, 110, 95, 105, 5⟩ [⟨106, 108, 90, 103, 7⟩]).1
    exact h.trans (by decide)
  · exact (c9_upsert_merge_fold (fun _ => none) (0, "BTC-USD")
      ⟨100, 110, 95, 105, 5⟩ [⟨106, 108, 90, 103, 7⟩]).2.1 (1, "ETH-USD") (by decide)
  · exact (c9_upsert_merge_fold (fun _ => none) (0, "BTC-USD")
      ⟨100, 110, 95, 105, 5⟩ []).2.2 1

end KafkaCandleIngestion
